import Mathlib

/-!
Shallow embedding of `src/system_monitor.py` (class `SystemMonitor` and `main`).

External library calls (psutil, json, the OS clock) are modelled as inputs:
each collector method receives the outcome of its underlying library calls as
an `Except PyError`-valued argument, so that an exception raised by the
library is an `Except.error` flowing into the method.  A method with no
`try/except` in the source propagates such an error unchanged; the source's
`except` clauses are translated as explicit matches on the error constructor
they catch.  Machine floats that the source merely copies or compares are
modelled as `ℚ`; byte counters are `ℕ`.
-/

/-- Exception kinds raised by the underlying library calls, mirroring the
exception classes that appear in the source (`PermissionError`,
`psutil.NoSuchProcess`, `psutil.AccessDenied`, `KeyboardInterrupt`) plus a
catch-all for any other raisable error (e.g. `OSError`). -/
inductive PyError where
  | permissionError
  | noSuchProcess
  | accessDenied
  | keyboardInterrupt
  | osError
  deriving DecidableEq, Repr, Fintype

instance exceptDecidableEq {ε α : Type} [DecidableEq ε] [DecidableEq α] :
    DecidableEq (Except ε α) := fun x y =>
  match x, y with
  | .ok a, .ok b => if h : a = b then .isTrue (by rw [h]) else .isFalse (by simp [h])
  | .error e, .error f => if h : e = f then .isTrue (by rw [h]) else .isFalse (by simp [h])
  | .ok _, .error _ => .isFalse (by simp)
  | .error _, .ok _ => .isFalse (by simp)

/-- Raw result of the psutil CPU queries made inside `get_cpu_info`
(`cpu_percent`, `cpu_count(logical=False)`, `cpu_count(logical=True)`,
`cpu_percent(percpu=True)`). -/
structure CpuSample where
  cpu_percent : ℚ
  cpu_cores : ℕ
  cpu_threads : ℕ
  per_core_usage : List ℚ
  deriving DecidableEq, Repr

/-- The mapping returned by `SystemMonitor.get_cpu_info`. -/
structure CpuInfo where
  cpu_percent : ℚ
  cpu_cores : ℕ
  cpu_threads : ℕ
  per_core_usage : List ℚ
  deriving DecidableEq, Repr

/-- Embeds `SystemMonitor.get_cpu_info` (src lines 24-31): reshapes the psutil
results into a dict.  The source has no `try/except` here, so an error from
the underlying calls propagates to the caller. -/
def get_cpu_info (s : Except PyError CpuSample) : Except PyError CpuInfo := do
  let v ← s
  pure ⟨v.cpu_percent, v.cpu_cores, v.cpu_threads, v.per_core_usage⟩

/-- Raw result of `psutil.virtual_memory()` and `psutil.swap_memory()`:
byte counts plus the library-computed `percent` field. -/
structure MemSample where
  total : ℕ
  used : ℕ
  available : ℕ
  percent : ℚ
  swap_total : ℕ
  swap_used : ℕ
  deriving DecidableEq, Repr

/-- The mapping returned by `SystemMonitor.get_memory_info`: sizes converted
to GB and rounded to two decimals, percent copied from the sample. -/
structure MemoryInfo where
  total_memory_gb : ℚ
  used_memory_gb : ℚ
  available_memory_gb : ℚ
  memory_percent : ℚ
  swap_total_gb : ℚ
  swap_used_gb : ℚ
  deriving DecidableEq, Repr

/-- Python's `round(x, 2)` on the exact rational value: round to the nearest
multiple of 1/100.  (Python rounds binary floats half-to-even; for the
quotients arising here the argument is never an exact tie, so the rational
rounding agrees.) -/
def round2 (q : ℚ) : ℚ := (round (q * 100) : ℤ) / 100

/-- The expression `round(bytes / (1024**3), 2)` as it appears throughout the source. -/
def toGB2 (bytes : ℕ) : ℚ := round2 ((bytes : ℚ) / 1024 ^ 3)

/-- Embeds `SystemMonitor.get_memory_info` (src lines 33-44).  No `try/except`:
errors propagate.  Note `memory_percent` is the sample's `percent` field,
copied verbatim; the GB fields are unit-converted and rounded. -/
def get_memory_info (s : Except PyError MemSample) : Except PyError MemoryInfo := do
  let m ← s
  pure ⟨toGB2 m.total, toGB2 m.used, toGB2 m.available,
        m.percent, toGB2 m.swap_total, toGB2 m.swap_used⟩

/-- One element of `psutil.disk_partitions()`. -/
structure DiskPartition where
  device : String
  mountpoint : String
  deriving DecidableEq, Repr

/-- Result of `psutil.disk_usage(mountpoint)` when it does not raise. -/
structure Usage where
  total : ℕ
  used : ℕ
  free : ℕ
  percent : ℚ
  deriving DecidableEq, Repr

/-- The per-device value stored in the `disk_info` dict. -/
structure DiskEntry where
  mountpoint : String
  total_gb : ℚ
  used_gb : ℚ
  free_gb : ℚ
  percent_used : ℚ
  deriving DecidableEq, Repr

/-- The dict value built for one partition in `get_disk_info`. -/
def mkDiskEntry (p : DiskPartition) (u : Usage) : DiskEntry :=
  ⟨p.mountpoint, toGB2 u.total, toGB2 u.used, toGB2 u.free, u.percent⟩

/-- Python dict assignment `d[k] = v` on a dict modelled as an insertion-order
association list: if `k` is present its value is replaced in place, otherwise
the pair is appended. -/
def dictInsert (d : List (String × DiskEntry)) (k : String) (v : DiskEntry) :
    List (String × DiskEntry) :=
  match d with
  | [] => [(k, v)]
  | (k', v') :: rest => if k' = k then (k, v) :: rest else (k', v') :: dictInsert rest k v

/-- Association-list lookup, the semantics of reading `d[k]` / iteration
content of the Python dict. -/
def dictFind (d : List (String × DiskEntry)) (k : String) : Option DiskEntry :=
  match d with
  | [] => none
  | (k', v') :: rest => if k' = k then some v' else dictFind rest k

/-- The loop body of `get_disk_info` (src lines 49-60): for each partition try
`disk_usage`; `except PermissionError: continue` skips exactly
`PermissionError`; any other exception is uncaught and propagates. -/
def diskLoop : List (DiskPartition × Except PyError Usage) →
    List (String × DiskEntry) → Except PyError (List (String × DiskEntry))
  | [], acc => .ok acc
  | (p, u) :: rest, acc =>
    match u with
    | .ok usage => diskLoop rest (dictInsert acc p.device (mkDiskEntry p usage))
    | .error .permissionError => diskLoop rest acc
    | .error e => .error e

/-- Embeds `SystemMonitor.get_disk_info` (src lines 46-61).  Its input is the
enumerated partition list paired with the outcome of each `disk_usage` call. -/
def get_disk_info (parts : List (DiskPartition × Except PyError Usage)) :
    Except PyError (List (String × DiskEntry)) :=
  diskLoop parts []

/-- Raw result of `psutil.net_io_counters()`. -/
structure NetSample where
  bytes_sent : ℕ
  bytes_recv : ℕ
  packets_sent : ℕ
  packets_recv : ℕ
  deriving DecidableEq, Repr

/-- The mapping returned by `SystemMonitor.get_network_info`. -/
structure NetworkInfo where
  bytes_sent : ℕ
  bytes_received : ℕ
  packets_sent : ℕ
  packets_received : ℕ
  deriving DecidableEq, Repr

/-- Embeds `SystemMonitor.get_network_info` (src lines 63-71).  No `try/except`:
errors propagate; counters are copied through in raw bytes/packets. -/
def get_network_info (s : Except PyError NetSample) : Except PyError NetworkInfo := do
  let n ← s
  pure ⟨n.bytes_sent, n.bytes_recv, n.packets_sent, n.packets_recv⟩

/-- One `proc.info` record from `psutil.process_iter(['pid', 'name',
'cpu_percent', 'memory_percent'])`. -/
structure ProcInfo where
  pid : ℕ
  name : String
  cpu_percent : ℚ
  memory_percent : ℚ
  deriving DecidableEq, Repr

/-- The enumeration loop of `get_top_processes` (src lines 75-80): each
process yields either its info record or an exception;
`except (psutil.NoSuchProcess, psutil.AccessDenied): continue` skips exactly
those two; any other exception propagates. -/
def collectProcs : List (Except PyError ProcInfo) → Except PyError (List ProcInfo)
  | [] => .ok []
  | .ok p :: rest => do pure (p :: (← collectProcs rest))
  | .error .noSuchProcess :: rest => collectProcs rest
  | .error .accessDenied :: rest => collectProcs rest
  | .error e :: _ => .error e

/-- Insert `x` into `l` keeping descending key order; `x` goes before the
first element whose key is ≤ `key x`.  Folding this over the input (earliest
element inserted last) yields exactly the stable descending sort that
Python's `sorted(..., key=..., reverse=True)` performs. -/
def insertDesc (key : ProcInfo → ℚ) (x : ProcInfo) : List ProcInfo → List ProcInfo
  | [] => [x]
  | y :: ys => if key x < key y then y :: insertDesc key x ys else x :: y :: ys

/-- Stable descending sort by `key`: the semantics of
`sorted(processes, key=lambda x: x[metric], reverse=True)`. -/
def sortedDesc (key : ProcInfo → ℚ) : List ProcInfo → List ProcInfo
  | [] => []
  | x :: xs => insertDesc key x (sortedDesc key xs)

/-- The mapping returned by `SystemMonitor.get_top_processes`. -/
structure ProcessesInfo where
  top_cpu_processes : List ProcInfo
  top_memory_processes : List ProcInfo
  deriving DecidableEq, Repr

/-- Embeds `SystemMonitor.get_top_processes` (src lines 73-90): collect the process
records (skipping vanished/denied processes), stably sort descending by
`cpu_percent` and by `memory_percent`, truncate each to `top_n`. -/
def get_top_processes (procs : List (Except PyError ProcInfo)) (top_n : ℕ := 5) :
    Except PyError ProcessesInfo := do
  let ps ← collectProcs procs
  pure ⟨(sortedDesc (fun x => x.cpu_percent) ps).take top_n,
        (sortedDesc (fun x => x.memory_percent) ps).take top_n⟩

/-- Raw results of the calls made inside `get_system_info`
(`socket.gethostname`, `platform.system`, `psutil.boot_time`,
`datetime.now`). -/
structure SysSample where
  hostname : String
  platform_system : String
  boot_time : ℤ
  now_ts : ℤ
  deriving DecidableEq, Repr

/-- The mapping returned by `SystemMonitor.get_system_info`. -/
structure SystemInfo where
  hostname : String
  platform : String
  boot_time : ℤ
  uptime_seconds : ℤ
  deriving DecidableEq, Repr

/-- Embeds `SystemMonitor.get_system_info` (src lines 92-99).  No `try/except`:
errors propagate. -/
def get_system_info (s : Except PyError SysSample) : Except PyError SystemInfo := do
  let v ← s
  pure ⟨v.hostname, v.platform_system, v.boot_time, v.now_ts - v.boot_time⟩

/-- A value stored in the dict built by `SystemMonitor.monitor`. -/
inductive DomainValue where
  | timestamp : String → DomainValue
  | system : SystemInfo → DomainValue
  | cpu : CpuInfo → DomainValue
  | memory : MemoryInfo → DomainValue
  | disk : List (String × DiskEntry) → DomainValue
  | network : NetworkInfo → DomainValue
  | processes : ProcessesInfo → DomainValue
  deriving DecidableEq, Repr

/-- The outside world as one sampling pass sees it: the outcome of every
underlying library call that `monitor` triggers. -/
structure Env where
  timestamp : String
  system : Except PyError SysSample
  cpu : Except PyError CpuSample
  memory : Except PyError MemSample
  disk : List (DiskPartition × Except PyError Usage)
  network : Except PyError NetSample
  processes : List (Except PyError ProcInfo)

/-- Embeds `SystemMonitor.monitor` (src lines 101-112): builds the `data` dict,
evaluating the collector calls in the order of the dict literal.  The source
has no `try/except`, so the first collector error propagates to the caller. -/
def monitor (env : Env) : Except PyError (List (String × DomainValue)) := do
  let sys ← get_system_info env.system
  let cpu ← get_cpu_info env.cpu
  let mem ← get_memory_info env.memory
  let dsk ← get_disk_info env.disk
  let net ← get_network_info env.network
  let prc ← get_top_processes env.processes 5
  pure [("timestamp", .timestamp env.timestamp),
        ("system", .system sys),
        ("cpu", .cpu cpu),
        ("memory", .memory mem),
        ("disk", .disk dsk),
        ("network", .network net),
        ("processes", .processes prc)]

/-- The collector methods that `monitor` invokes, in invocation order: the
registered collectors of this program. -/
def registered_collectors : List String :=
  ["system", "cpu", "memory", "disk", "network", "processes"]

/-- The domain keys of an assembled snapshot: every key of the `data` dict
except the `timestamp` metadata entry. -/
def domainKeys (data : List (String × DomainValue)) : List String :=
  (data.map Prod.fst).filter (fun k => k ≠ "timestamp")

/-- Embeds `SystemMonitor.log_monitoring_data` (src lines 114-117): the file is
opened in append mode and one rendered record plus a separator line is
written.  File content is modelled as a character list; `rendered` stands for
`json.dumps(data, indent=2)`, which is produced by the external json
library. -/
def log_monitoring_data (log_file : List Char) (rendered : List Char) : List Char :=
  log_file ++ (rendered ++ '\n' :: (List.replicate 80 '=' ++ ['\n']))

/-- The sleep constant of the main loop: `time.sleep(5)` (src line 171). -/
def interval : ℚ := 5

/-- Timing model of the `while True` loop in `main` (src lines 159-171): pass
`n` starts, the monitoring work of that pass takes `procTime n` seconds of
wall clock, then the loop sleeps `interval` seconds, and only then does pass
`n + 1` start.  `tickStart procTime n` is the wall-clock start of pass `n`
(fixed-delay scheduling: no deadline arithmetic appears in the source). -/
def tickStart (procTime : ℕ → ℚ) : ℕ → ℚ
  | 0 => 0
  | n + 1 => tickStart procTime n + procTime n + interval

/-- The four sequential actions of one iteration of the `main` loop:
`monitor()`, `log_monitoring_data`, `print_summary`, `time.sleep(5)`. -/
inductive Step where
  | collect
  | logData
  | summary
  | sleep
  deriving DecidableEq, Repr

/-- The iteration body in source order. -/
def tickSteps : List Step := [.collect, .logData, .summary, .sleep]

/-- Observable progress of the `main` loop: how many passes reached each
action, and whether the loop has exited through the `except
KeyboardInterrupt` handler. -/
structure LoopState where
  collected : ℕ
  logged : ℕ
  printed : ℕ
  slept : ℕ
  stopped : Bool
  deriving DecidableEq, Repr

def initLoopState : LoopState := ⟨0, 0, 0, 0, false⟩

/-- Execute one action of the loop body. -/
def applyStep (st : LoopState) : Step → LoopState
  | .collect => { st with collected := st.collected + 1 }
  | .logData => { st with logged := st.logged + 1 }
  | .summary => { st with printed := st.printed + 1 }
  | .sleep => { st with slept := st.slept + 1 }

/-- One full iteration of the loop body. -/
def runTick (st : LoopState) : LoopState := tickSteps.foldl applyStep st

/-- Embeds `main` (src lines 158-174) when Ctrl+C raises `KeyboardInterrupt` during
action `s` of pass `t`: the first `t` passes run in full, pass `t` executes
the actions before `s`, action `s` is aborted by the asynchronous exception,
and the `except KeyboardInterrupt` handler catches it, so the loop exits
cleanly. -/
def mainRun (t : ℕ) (s : Step) : LoopState :=
  let afterFull := runTick^[t] initLoopState
  let afterPart := (tickSteps.takeWhile (fun a => a ≠ s)).foldl applyStep afterFull
  { afterPart with stopped := true }

/-! ## Concrete instances used in counterexamples and witnesses -/

/-- A memory sample whose library `percent` field (42) disagrees with the
used/total ratio (50%): total 16 GB, used 8 GB. -/
def memCexSample : MemSample :=
  ⟨16000000000, 8000000000, 8000000000, 42, 0, 0⟩

def sysOkSample : SysSample := ⟨"host", "Linux", 100, 160⟩

/-- An environment whose CPU sampling raises a permission fault while every
other collector's underlying calls succeed. -/
def envCpuFail : Env where
  timestamp := "t0"
  system := .ok sysOkSample
  cpu := .error .permissionError
  memory := .ok memCexSample
  disk := []
  network := .ok ⟨0, 0, 0, 0⟩
  processes := []

/-! ## Helper lemmas -/

theorem bind_ok_inv {α β : Type} {x : Except PyError α} {f : α → Except PyError β} {b : β}
    (h : (x >>= f) = Except.ok b) : ∃ a, x = Except.ok a ∧ f a = Except.ok b := by
  cases x with
  | ok a => exact ⟨a, rfl, h⟩
  | error e => simp [Bind.bind, Except.bind] at h

/-! ## Claims -/

/-- C10: `log_monitoring_data` only appends: the prior log-file content is
preserved unchanged as a prefix of the content after the write, and the write
adds exactly the rendered record followed by the separator line. -/
theorem C10_log_appends (old rendered : List Char) :
    (log_monitoring_data old rendered).take old.length = old ∧
    ∃ added, log_monitoring_data old rendered = old ++ added := by
  exact ⟨List.take_left old _, ⟨_, rfl⟩⟩

/-- C7 counterexample: the claim says consecutive tick starts are spaced by
the configured interval alone.  With a pass that takes 1 second of
processing, the spacing between the starts of pass 0 and pass 1 is 6 seconds,
not `interval` (5): the loop sleeps a fixed 5 seconds after the work, so
processing time is added on top. -/
theorem C7_cex :
    tickStart (fun _ => 1) 1 - tickStart (fun _ => 1) 0 = 6 ∧
    tickStart (fun _ => 1) 1 - tickStart (fun _ => 1) 0 ≠ interval := by
  norm_num [tickStart, interval]

/-- C7 amended: the loop is fixed-delay, not fixed-rate: for every sequence
of processing times and every pair of consecutive passes, the start-to-start
spacing equals that pass's processing time plus the configured interval, so
processing time accumulates as drift. -/
theorem C7_fixed_delay (procTime : ℕ → ℚ) (n : ℕ) :
    tickStart procTime (n + 1) - tickStart procTime n = procTime n + interval := by
  simp [tickStart]
  ring

/-- C5 counterexample: a sample with total 16,000,000,000 bytes and used
8,000,000,000 bytes (a 50% ratio) whose library `percent` field is 42 is
reported with percent 42, not 50: the percent is copied from the library
field, not recomputed from total and used. -/
theorem C5_cex :
    Except.map MemoryInfo.memory_percent (get_memory_info (Except.ok memCexSample)) =
      Except.ok 42 ∧
    100 * (memCexSample.used : ℚ) / (memCexSample.total : ℚ) = 50 ∧
    (42 : ℚ) ≠ 50 := by
  refine ⟨rfl, ?_, by norm_num⟩
  norm_num [memCexSample]

/-- C5 amended: for every memory sample, the reported memory percent is the
library-provided `percent` field copied verbatim — an independent stored
field — and is not recomputed from the total and used values. -/
theorem C5_percent_copied (m : MemSample) :
    Except.map MemoryInfo.memory_percent (get_memory_info (Except.ok m)) =
      Except.ok m.percent := rfl

/-- C6 counterexample: a memory total of 16,000,000,000 bytes is recorded as
14.9 (GB, rounded to two decimals), not as a byte count: size fields are
unit-converted before any Reporter sees them. -/
theorem C6_cex :
    Except.map MemoryInfo.total_memory_gb (get_memory_info (Except.ok memCexSample)) =
      Except.ok (149 / 10 : ℚ) ∧
    (149 / 10 : ℚ) ≠ ((16000000000 : ℕ) : ℚ) := by
  refine ⟨?_, by norm_num⟩
  show Except.ok (toGB2 16000000000) = Except.ok (149 / 10 : ℚ)
  have h : toGB2 16000000000 = 149 / 10 := by
    norm_num [toGB2, round2, round_eq]
  rw [h]

/-- C6 amended: memory and disk size fields are recorded converted to GB and
rounded to two decimals — losing precision before the Reporter stage, as two
distinct byte totals can be recorded identically — and only the network
counters are recorded as raw byte/packet counts. -/
theorem C6_gb_not_bytes (m : MemSample) (p : DiskPartition) (u : Usage) (n : NetSample) :
    Except.map MemoryInfo.total_memory_gb (get_memory_info (Except.ok m)) =
      Except.ok (toGB2 m.total) ∧
    Except.map MemoryInfo.swap_total_gb (get_memory_info (Except.ok m)) =
      Except.ok (toGB2 m.swap_total) ∧
    (mkDiskEntry p u).total_gb = toGB2 u.total ∧
    (mkDiskEntry p u).used_gb = toGB2 u.used ∧
    (mkDiskEntry p u).free_gb = toGB2 u.free ∧
    get_network_info (Except.ok n) =
      Except.ok ⟨n.bytes_sent, n.bytes_recv, n.packets_sent, n.packets_recv⟩ ∧
    toGB2 16000000000 = toGB2 16000000001 ∧ (16000000000 : ℕ) ≠ 16000000001 := by
  refine ⟨rfl, rfl, rfl, rfl, rfl, rfl, ?_, by norm_num⟩
  have h1 : toGB2 16000000000 = 149 / 10 := by
    norm_num [toGB2, round2, round_eq]
  have h2 : toGB2 16000000001 = 149 / 10 := by
    norm_num [toGB2, round2, round_eq]
  rw [h1, h2]

/-- C1 counterexample: a permission fault raised by the CPU sampling library
call is not caught anywhere: `monitor` itself returns the propagated
exception instead of a snapshot with a Failed CPU domain. -/
theorem C1_cex : monitor envCpuFail = Except.error PyError.permissionError := rfl

/-- C1 amended: error handling is partial and local only to two collectors:
the disk collector catches exactly `PermissionError` per mount (any other
per-mount exception propagates) and the process collector catches exactly
`NoSuchProcess`/`AccessDenied` per process (any other exception propagates);
the CPU, memory, network and system collectors have no handler at all, so
every underlying failure there propagates uncaught to the caller, and no
`Failed(reason)` domain result exists in the code. -/
theorem C1_partial_handling (e : PyError) :
    get_cpu_info (.error e) = .error e ∧
    get_memory_info (.error e) = .error e ∧
    get_network_info (.error e) = .error e ∧
    get_system_info (.error e) = .error e ∧
    (∀ p rest, get_disk_info ((p, Except.error PyError.permissionError) :: rest) =
      get_disk_info rest) ∧
    (∀ p rest, get_disk_info ((p, Except.error PyError.osError) :: rest) =
      Except.error PyError.osError) ∧
    (∀ rest, collectProcs (Except.error PyError.noSuchProcess :: rest) = collectProcs rest) ∧
    (∀ rest, collectProcs (Except.error PyError.accessDenied :: rest) = collectProcs rest) ∧
    (∀ rest, collectProcs (Except.error PyError.keyboardInterrupt :: rest) =
      Except.error PyError.keyboardInterrupt) := by
  refine ⟨rfl, rfl, rfl, rfl, fun p rest => rfl, fun p rest => rfl,
    fun rest => rfl, fun rest => rfl, fun rest => rfl⟩

theorem runTick_iterate (t : ℕ) : runTick^[t] initLoopState = ⟨t, t, t, t, false⟩ := by
  induction t with
  | zero => rfl
  | succ n ih => rw [Function.iterate_succ_apply', ih]; rfl

/-- C8 counterexample: KeyboardInterrupt arriving during the log step of the
first pass: the loop exits (stopped) with the snapshot collected but never
logged, printed, or followed by a completed tick — the loop does not finish
the tick in progress before exiting. -/
theorem C8_cex :
    (mainRun 0 .logData).stopped = true ∧
    (mainRun 0 .logData).collected = 1 ∧
    (mainRun 0 .logData).logged = 0 ∧
    (mainRun 0 .logData).printed = 0 ∧
    (mainRun 0 .logData).slept = 0 := by
  decide

/-- C8 amended: when KeyboardInterrupt is signaled during action `s` of pass
`t`, the loop exits immediately, abandoning the remainder of that pass (its
work completes only when the signal arrives during the sleep); the interrupt
is always caught so the run always ends in the clean stopped state; and log
records are only ever written whole, in order (printed ≤ logged ≤ collected,
with at most the in-progress pass beyond the `t` completed ones). -/
theorem C8_abort_mid_tick (t : ℕ) (s : Step) :
    (mainRun t s).stopped = true ∧
    (mainRun t s).slept = t ∧
    (mainRun t s).printed ≤ (mainRun t s).logged ∧
    (mainRun t s).logged ≤ (mainRun t s).collected ∧
    (mainRun t s).collected ≤ t + 1 ∧
    ((mainRun t s).printed = t + 1 ↔ s = Step.sleep) := by
  cases s <;>
    simp [mainRun, runTick_iterate, tickSteps, applyStep, List.takeWhile]

/-- An environment in which every underlying library call succeeds. -/
def envOK : Env where
  timestamp := "t0"
  system := .ok sysOkSample
  cpu := .ok ⟨0, 1, 2, []⟩
  memory := .ok memCexSample
  disk := []
  network := .ok ⟨0, 0, 0, 0⟩
  processes := []

/-- The snapshot `monitor` assembles from `envOK`. -/
def envOKdata : List (String × DomainValue) :=
  [("timestamp", .timestamp "t0"),
   ("system", .system ⟨"host", "Linux", 100, 60⟩),
   ("cpu", .cpu ⟨0, 1, 2, []⟩),
   ("memory", .memory ⟨toGB2 16000000000, toGB2 8000000000, toGB2 8000000000,
                       42, toGB2 0, toGB2 0⟩),
   ("disk", .disk []),
   ("network", .network ⟨0, 0, 0, 0⟩),
   ("processes", .processes ⟨[], []⟩)]

/-- C4: whenever `monitor` assembles a snapshot, the snapshot's domain keys
are exactly the registered collectors, each occurring once — no missing and
no extra domains. -/
theorem C4_one_entry_per_collector (env : Env) (data : List (String × DomainValue))
    (h : monitor env = Except.ok data) :
    domainKeys data = registered_collectors ∧ registered_collectors.Nodup := by
  unfold monitor at h
  obtain ⟨sys, h1, h⟩ := bind_ok_inv h
  obtain ⟨cpu, h2, h⟩ := bind_ok_inv h
  obtain ⟨mem, h3, h⟩ := bind_ok_inv h
  obtain ⟨dsk, h4, h⟩ := bind_ok_inv h
  obtain ⟨net, h5, h⟩ := bind_ok_inv h
  obtain ⟨prc, h6, h⟩ := bind_ok_inv h
  simp only [pure, Except.pure, Except.ok.injEq] at h
  subst h
  exact ⟨rfl, by decide⟩

/-- C4 witness: at `envOK` the assembled snapshot has exactly the six
registered collector domains plus the timestamp entry. -/
theorem C4_witness :
    monitor envOK = Except.ok envOKdata ∧
    (domainKeys envOKdata = registered_collectors ∧ registered_collectors.Nodup) :=
  ⟨rfl, C4_one_entry_per_collector envOK envOKdata rfl⟩

/-! ## Sorting lemmas for the process collector -/

theorem length_insertDesc (key : ProcInfo → ℚ) (x : ProcInfo) (l : List ProcInfo) :
    (insertDesc key x l).length = l.length + 1 := by
  induction l with
  | nil => rfl
  | cons y ys ih =>
    simp only [insertDesc]
    split
    · simp [ih]
    · simp

theorem length_sortedDesc (key : ProcInfo → ℚ) (l : List ProcInfo) :
    (sortedDesc key l).length = l.length := by
  induction l with
  | nil => rfl
  | cons x xs ih => simp [sortedDesc, length_insertDesc, ih]

theorem mem_insertDesc {key : ProcInfo → ℚ} {x a : ProcInfo} {l : List ProcInfo} :
    a ∈ insertDesc key x l ↔ a = x ∨ a ∈ l := by
  induction l with
  | nil => simp [insertDesc]
  | cons y ys ih =>
    simp only [insertDesc]
    split
    · simp only [List.mem_cons, ih]
      tauto
    · simp only [List.mem_cons]

theorem pairwise_insertDesc (key : ProcInfo → ℚ) (x : ProcInfo) (l : List ProcInfo)
    (h : l.Pairwise (fun a b => key b ≤ key a)) :
    (insertDesc key x l).Pairwise (fun a b => key b ≤ key a) := by
  induction l with
  | nil => simp [insertDesc]
  | cons y ys ih =>
    rw [List.pairwise_cons] at h
    obtain ⟨hy, hys⟩ := h
    simp only [insertDesc]
    split
    · rename_i hlt
      rw [List.pairwise_cons]
      refine ⟨fun a ha => ?_, ih hys⟩
      rcases mem_insertDesc.1 ha with rfl | ha
      · exact le_of_lt hlt
      · exact hy a ha
    · rename_i hge
      rw [List.pairwise_cons]
      refine ⟨fun a ha => ?_, List.pairwise_cons.2 ⟨hy, hys⟩⟩
      rcases List.mem_cons.1 ha with rfl | ha
      · exact not_lt.1 hge
      · exact le_trans (hy a ha) (not_lt.1 hge)

theorem pairwise_sortedDesc (key : ProcInfo → ℚ) (l : List ProcInfo) :
    (sortedDesc key l).Pairwise (fun a b => key b ≤ key a) := by
  induction l with
  | nil => simp [sortedDesc]
  | cons x xs ih => exact pairwise_insertDesc key x _ ih

/-- Stability at one key value: elements whose key equals `c` keep their
relative input order when `x` is inserted. -/
theorem filter_insertDesc (key : ProcInfo → ℚ) (x : ProcInfo) (l : List ProcInfo) (c : ℚ) :
    (insertDesc key x l).filter (fun a => decide (key a = c)) =
      if key x = c then x :: l.filter (fun a => decide (key a = c))
      else l.filter (fun a => decide (key a = c)) := by
  induction l with
  | nil =>
    by_cases h : key x = c <;> simp [insertDesc, List.filter, h]
  | cons y ys ih =>
    simp only [insertDesc]
    split
    · rename_i hlt
      by_cases hy : key y = c
      · have hx : ¬ key x = c := by
          rw [← hy]
          exact ne_of_lt hlt
        simp [List.filter_cons, hy, hx, ih]
      · simp [List.filter_cons, hy, ih]
    · rename_i hge
      by_cases hx : key x = c <;> simp [List.filter_cons, hx]

/-- Stability of the stable descending sort: for every key value, the
elements carrying that value appear in the sorted output exactly in their
input order. -/
theorem filter_sortedDesc (key : ProcInfo → ℚ) (l : List ProcInfo) (c : ℚ) :
    (sortedDesc key l).filter (fun a => decide (key a = c)) =
      l.filter (fun a => decide (key a = c)) := by
  induction l with
  | nil => rfl
  | cons x xs ih =>
    simp only [sortedDesc]
    rw [filter_insertDesc]
    by_cases h : key x = c <;> simp [List.filter_cons, h, ih]

theorem collectProcs_map_ok (ps : List ProcInfo) :
    collectProcs (ps.map Except.ok) = Except.ok ps := by
  induction ps with
  | nil => rfl
  | cons p rest ih => simp [collectProcs, ih, Bind.bind, Except.bind, pure, Except.pure]

theorem filter_take_split (P : ProcInfo → Bool) (n : ℕ) (l : List ProcInfo) :
    ∃ rest, l.filter P = (l.take n).filter P ++ rest := by
  refine ⟨(l.drop n).filter P, ?_⟩
  conv_lhs => rw [← List.take_append_drop n l, List.filter_append]

/-- The ascending-pid tie-break order the claim asserts for the returned
top-K lists: any two entries with equal metric appear in ascending pid
order. -/
def tieBrokenByPid (key : ProcInfo → ℚ) (l : List ProcInfo) : Prop :=
  l.Pairwise (fun a b => key a = key b → a.pid ≤ b.pid)

/-- Two processes with equal cpu_percent, enumerated with the higher pid
first. -/
def tieProcA : ProcInfo := ⟨2, "b", 5, 1⟩

def tieProcB : ProcInfo := ⟨1, "a", 5, 2⟩

/-- C2 counterexample: on a population of two processes with equal
cpu_percent enumerated as pid 2 then pid 1, the top-CPU list keeps the
enumeration order [2, 1]: the sort is stable with no pid tie-break, so equal
metric values are NOT ordered by ascending pid. -/
theorem C2_cex :
    get_top_processes [Except.ok tieProcA, Except.ok tieProcB] 5 =
      Except.ok ⟨[tieProcA, tieProcB], [tieProcB, tieProcA]⟩ ∧
    ¬ tieBrokenByPid (fun x => x.cpu_percent) [tieProcA, tieProcB] := by
  constructor
  · rfl
  · intro h
    rw [tieBrokenByPid, List.pairwise_cons] at h
    have := h.1 tieProcB (by simp) rfl
    simp [tieProcA, tieProcB] at this

/-- C2 amended: for every process population and every K, each top-K list
has length min(K, population size) and is sorted in descending order by its
metric; processes with equal metric values are ordered by their enumeration
order (Python's sort is stable and no pid tie-break exists): for every
metric value, the equal-valued entries of the output are an initial segment,
in input order, of the equal-valued entries of the input. -/
theorem C2_topk (ps : List ProcInfo) (K : ℕ) :
    ∃ out, get_top_processes (ps.map Except.ok) K = Except.ok out ∧
      out.top_cpu_processes.length = min K ps.length ∧
      out.top_memory_processes.length = min K ps.length ∧
      out.top_cpu_processes.Pairwise (fun a b => b.cpu_percent ≤ a.cpu_percent) ∧
      out.top_memory_processes.Pairwise (fun a b => b.memory_percent ≤ a.memory_percent) ∧
      (∀ c : ℚ, ∃ rest, ps.filter (fun a => decide (a.cpu_percent = c)) =
          out.top_cpu_processes.filter (fun a => decide (a.cpu_percent = c)) ++ rest) ∧
      (∀ c : ℚ, ∃ rest, ps.filter (fun a => decide (a.memory_percent = c)) =
          out.top_memory_processes.filter (fun a => decide (a.memory_percent = c)) ++ rest) := by
  refine ⟨⟨(sortedDesc (fun x => x.cpu_percent) ps).take K,
           (sortedDesc (fun x => x.memory_percent) ps).take K⟩, ?_, ?_, ?_, ?_, ?_, ?_, ?_⟩
  · simp [get_top_processes, collectProcs_map_ok, Bind.bind, Except.bind, pure, Except.pure]
  · simp [List.length_take, length_sortedDesc]
  · simp [List.length_take, length_sortedDesc]
  · exact (pairwise_sortedDesc _ ps).sublist (List.take_sublist K _) |>.imp id
  · exact (pairwise_sortedDesc _ ps).sublist (List.take_sublist K _) |>.imp id
  · intro c
    obtain ⟨rest, hrest⟩ :=
      filter_take_split (fun a => decide (a.cpu_percent = c)) K
        (sortedDesc (fun x => x.cpu_percent) ps)
    exact ⟨rest, by rw [← filter_sortedDesc (fun x => x.cpu_percent) ps c]; exact hrest⟩
  · intro c
    obtain ⟨rest, hrest⟩ :=
      filter_take_split (fun a => decide (a.memory_percent = c)) K
        (sortedDesc (fun x => x.memory_percent) ps)
    exact ⟨rest, by rw [← filter_sortedDesc (fun x => x.memory_percent) ps c]; exact hrest⟩

/-! ## Disk collector lemmas -/

/-- Whether a partition's usage query succeeded. -/
def isAccessible : DiskPartition × Except PyError Usage → Bool
  | (_, .ok _) => true
  | (_, .error _) => false

/-- The dict entries the accessible partitions contribute, in enumeration
order (before any duplicate-device key collapsing). -/
def accessibleEntries : List (DiskPartition × Except PyError Usage) →
    List (String × DiskEntry)
  | [] => []
  | (p, .ok u) :: rest => (p.device, mkDiskEntry p u) :: accessibleEntries rest
  | (_, .error _) :: rest => accessibleEntries rest

theorem length_accessibleEntries (parts : List (DiskPartition × Except PyError Usage)) :
    (accessibleEntries parts).length = (parts.filter isAccessible).length := by
  induction parts with
  | nil => rfl
  | cons pu rest ih =>
    obtain ⟨p, u⟩ := pu
    cases u with
    | ok usage => simp [accessibleEntries, List.filter_cons, isAccessible, ih]
    | error e => simp [accessibleEntries, List.filter_cons, isAccessible, ih]

theorem keys_dictInsert (d : List (String × DiskEntry)) (k : String) (v : DiskEntry) :
    (dictInsert d k v).map Prod.fst =
      if k ∈ d.map Prod.fst then d.map Prod.fst else d.map Prod.fst ++ [k] := by
  induction d with
  | nil => simp [dictInsert]
  | cons kv rest ih =>
    obtain ⟨k', v'⟩ := kv
    simp only [dictInsert]
    by_cases h : k' = k
    · subst h
      simp
    · rw [if_neg h]
      have h' : ¬ k = k' := fun hk => h hk.symm
      by_cases hmem : k ∈ rest.map Prod.fst
      · simp [ih, hmem, h']
      · simp [ih, hmem, h']

theorem nodup_keys_dictInsert (d : List (String × DiskEntry)) (k : String) (v : DiskEntry)
    (h : (d.map Prod.fst).Nodup) : ((dictInsert d k v).map Prod.fst).Nodup := by
  rw [keys_dictInsert]
  by_cases hmem : k ∈ d.map Prod.fst
  · rwa [if_pos hmem]
  · rw [if_neg hmem]
    simp [List.nodup_append, h, hmem]

theorem dictInsert_of_not_mem (d : List (String × DiskEntry)) (k : String) (v : DiskEntry)
    (h : k ∉ d.map Prod.fst) : dictInsert d k v = d ++ [(k, v)] := by
  induction d with
  | nil => rfl
  | cons kv rest ih =>
    obtain ⟨k', v'⟩ := kv
    simp only [List.map_cons, List.mem_cons] at h
    push_neg at h
    simp only [dictInsert]
    rw [if_neg (fun hk => h.1 hk.symm)]
    simp [ih h.2]

theorem dictFind_dictInsert (d : List (String × DiskEntry)) (k : String) (v : DiskEntry)
    (k' : String) :
    dictFind (dictInsert d k v) k' = if k = k' then some v else dictFind d k' := by
  induction d with
  | nil => simp [dictInsert, dictFind]
  | cons kv rest ih =>
    obtain ⟨k0, v0⟩ := kv
    simp only [dictInsert]
    by_cases h : k0 = k
    · subst h
      simp only [if_pos rfl, dictFind]
      by_cases h' : k0 = k' <;> simp [h']
    · rw [if_neg h]
      simp only [dictFind]
      by_cases h' : k0 = k'
      · subst h'
        rw [if_pos rfl, if_neg (fun hk => h hk.symm)]
        simp [dictFind]
      · simp [h', ih]

/-- The entry contributed by the last accessible partition carrying device
`dev`, if any: the value that wins the dict key collision. -/
def lastAccessible (dev : String) : List (DiskPartition × Except PyError Usage) →
    Option DiskEntry
  | [] => none
  | (p, u) :: rest =>
    match lastAccessible dev rest with
    | some e => some e
    | none =>
      match u with
      | .ok usage => if p.device = dev then some (mkDiskEntry p usage) else none
      | .error _ => none

theorem diskLoop_ok_keys_nodup (parts : List (DiskPartition × Except PyError Usage))
    (acc d : List (String × DiskEntry)) (h : diskLoop parts acc = Except.ok d)
    (hacc : (acc.map Prod.fst).Nodup) : (d.map Prod.fst).Nodup := by
  induction parts generalizing acc with
  | nil =>
    simp only [diskLoop, Except.ok.injEq] at h
    subst h
    exact hacc
  | cons pu rest ih =>
    obtain ⟨p, u⟩ := pu
    cases u with
    | ok usage =>
      simp only [diskLoop] at h
      exact ih _ h (nodup_keys_dictInsert _ _ _ hacc)
    | error e =>
      cases e with
      | permissionError =>
        simp only [diskLoop] at h
        exact ih _ h hacc
      | noSuchProcess => simp [diskLoop] at h
      | accessDenied => simp [diskLoop] at h
      | keyboardInterrupt => simp [diskLoop] at h
      | osError => simp [diskLoop] at h

theorem diskLoop_ok_find (parts : List (DiskPartition × Except PyError Usage))
    (acc d : List (String × DiskEntry)) (dev : String)
    (h : diskLoop parts acc = Except.ok d) :
    dictFind d dev =
      (match lastAccessible dev parts with
       | some e => some e
       | none => dictFind acc dev) := by
  induction parts generalizing acc with
  | nil =>
    simp only [diskLoop, Except.ok.injEq] at h
    subst h
    rfl
  | cons pu rest ih =>
    obtain ⟨p, u⟩ := pu
    cases u with
    | ok usage =>
      simp only [diskLoop] at h
      rw [ih _ h]
      simp only [lastAccessible]
      cases hl : lastAccessible dev rest with
      | some e => rfl
      | none =>
        rw [dictFind_dictInsert]
        by_cases hdev : p.device = dev <;> simp [hdev]
    | error e =>
      cases e with
      | permissionError =>
        simp only [diskLoop] at h
        rw [ih _ h]
        simp only [lastAccessible]
        cases hl : lastAccessible dev rest <;> rfl
      | noSuchProcess => simp [diskLoop] at h
      | accessDenied => simp [diskLoop] at h
      | keyboardInterrupt => simp [diskLoop] at h
      | osError => simp [diskLoop] at h

theorem diskLoop_permOnly_append (parts : List (DiskPartition × Except PyError Usage))
    (acc : List (String × DiskEntry))
    (hperm : ∀ pu ∈ parts, ∀ e, pu.2 = Except.error e → e = PyError.permissionError)
    (hnd : ((accessibleEntries parts).map Prod.fst).Nodup)
    (hdisj : ∀ k ∈ (accessibleEntries parts).map Prod.fst, k ∉ acc.map Prod.fst) :
    diskLoop parts acc = Except.ok (acc ++ accessibleEntries parts) := by
  induction parts generalizing acc with
  | nil => simp [diskLoop, accessibleEntries]
  | cons pu rest ih =>
    obtain ⟨p, u⟩ := pu
    have hperm' : ∀ pu ∈ rest, ∀ e, pu.2 = Except.error e → e = PyError.permissionError :=
      fun pu hpu e he => hperm pu (List.mem_cons_of_mem _ hpu) e he
    cases u with
    | ok usage =>
      have hnd' : (p.device :: (accessibleEntries rest).map Prod.fst).Nodup := by
        simpa [accessibleEntries] using hnd
      have hpacc : p.device ∉ acc.map Prod.fst :=
        hdisj p.device (by simp [accessibleEntries])
      have hdisj' : ∀ k ∈ (accessibleEntries rest).map Prod.fst,
          k ∉ (acc ++ [(p.device, mkDiskEntry p usage)]).map Prod.fst := by
        intro k hk
        simp only [List.map_append, List.mem_append, List.map_cons, List.map_nil,
          List.mem_singleton, not_or]
        refine ⟨hdisj k (by simp [accessibleEntries, hk]), fun hkp => ?_⟩
        subst hkp
        exact (List.nodup_cons.1 hnd').1 hk
      simp only [diskLoop]
      rw [dictInsert_of_not_mem _ _ _ hpacc,
        ih _ hperm' (List.nodup_cons.1 hnd').2 hdisj']
      simp [accessibleEntries]
    | error e =>
      have he : e = PyError.permissionError :=
        hperm (p, .error e) (List.mem_cons_self _ _) e rfl
      subst he
      have hnd' : ((accessibleEntries rest).map Prod.fst).Nodup := by
        simpa [accessibleEntries] using hnd
      have hdisj' : ∀ k ∈ (accessibleEntries rest).map Prod.fst, k ∉ acc.map Prod.fst :=
        fun k hk => hdisj k (by simpa [accessibleEntries] using hk)
      simp only [diskLoop]
      have := ih _ hperm' hnd' hdisj'
      rw [this]
      simp [accessibleEntries]

/-- Two accessible mounts sharing the device name "tmpfs" (as bind mounts and
tmpfs instances commonly do). -/
def dupP1 : DiskPartition := ⟨"tmpfs", "/run"⟩

def dupP2 : DiskPartition := ⟨"tmpfs", "/tmp"⟩

def dupU1 : Usage := ⟨100, 10, 90, 10⟩

def dupU2 : Usage := ⟨200, 20, 180, 10⟩

def dupParts : List (DiskPartition × Except PyError Usage) :=
  [(dupP1, .ok dupU1), (dupP2, .ok dupU2)]

/-- A partition list in which one mount raises PermissionError on the usage
query while the two accessible mounts both carry device "tmpfs". -/
def dupPermParts : List (DiskPartition × Except PyError Usage) :=
  [(dupP1, .ok dupU1),
   (⟨"sda2", "/home"⟩, .error .permissionError),
   (dupP2, .ok dupU2)]

/-- C3 counterexample: a partition list where a mount raises a permission
failure on the usage query — so the claim's antecedent holds — yet the
result has a single entry for the two accessible mounts, not one entry per
accessible mount: both accessible mounts carry device "tmpfs" and the dict
is keyed by device, the later mount overwriting the earlier. -/
theorem C3_cex :
    (∃ pu ∈ dupPermParts, pu.2 = Except.error PyError.permissionError) ∧
    get_disk_info dupPermParts = Except.ok [("tmpfs", mkDiskEntry dupP2 dupU2)] ∧
    (dupPermParts.filter isAccessible).length = 2 ∧
    [("tmpfs", mkDiskEntry dupP2 dupU2)].length ≠
      (dupPermParts.filter isAccessible).length := by
  refine ⟨by decide, rfl, rfl, by decide⟩

/-- C3 amended: if every failing usage query raises a permission failure and
the accessible mounts carry pairwise-distinct device names, then
`get_disk_info` returns normally (Ok, not a propagated error) with exactly
one entry per accessible mount — the inaccessible mounts silently omitted
(e.g. 2 inaccessible out of 5 yields exactly 3 entries); when accessible
mounts share a device name the entries collapse per device and the count
drops below the accessible-mount count. -/
theorem C3_partial_success (parts : List (DiskPartition × Except PyError Usage))
    (hperm : ∀ pu ∈ parts, ∀ e, pu.2 = Except.error e → e = PyError.permissionError)
    (hnd : ((accessibleEntries parts).map Prod.fst).Nodup) :
    get_disk_info parts = Except.ok (accessibleEntries parts) ∧
    (accessibleEntries parts).length = (parts.filter isAccessible).length := by
  refine ⟨?_, length_accessibleEntries parts⟩
  have h := diskLoop_permOnly_append parts [] hperm hnd (by simp)
  simpa [get_disk_info] using h

/-- The spec's 5-mount scenario: 2 of 5 mounts raise PermissionError. -/
def fiveParts : List (DiskPartition × Except PyError Usage) :=
  [(⟨"sda1", "/"⟩, .ok ⟨500, 100, 400, 20⟩),
   (⟨"sda2", "/home"⟩, .error .permissionError),
   (⟨"sdb1", "/data"⟩, .ok ⟨300, 30, 270, 10⟩),
   (⟨"sdc1", "/mnt/c"⟩, .error .permissionError),
   (⟨"sdd1", "/mnt/d"⟩, .ok ⟨100, 50, 50, 50⟩)]

/-- C3 witness: on the 5-mount scenario with 2 permission-failing mounts the
hypotheses hold and the result has exactly the 3 accessible entries. -/
theorem C3_witness :
    (∀ pu ∈ fiveParts, ∀ e, pu.2 = Except.error e → e = PyError.permissionError) ∧
    ((accessibleEntries fiveParts).map Prod.fst).Nodup ∧
    (get_disk_info fiveParts = Except.ok (accessibleEntries fiveParts) ∧
     (accessibleEntries fiveParts).length = (fiveParts.filter isAccessible).length) ∧
    (accessibleEntries fiveParts).length = 3 := by
  have hp : ∀ pu ∈ fiveParts, ∀ e, pu.2 = Except.error e → e = PyError.permissionError := by
    decide
  have hn : ((accessibleEntries fiveParts).map Prod.fst).Nodup := by decide
  exact ⟨hp, hn, C3_partial_success fiveParts hp hn, rfl⟩

/-- C9: the disk result is keyed by device name: its keys are duplicate-free,
the entry stored under a device is the one contributed by the
last-enumerated accessible mount with that device, and consequently the
number of entries can be strictly smaller than the number of accessible
mounts (dupParts: 2 accessible mounts, 1 entry, holding the later mount's
data). -/
theorem C9_device_keyed (parts : List (DiskPartition × Except PyError Usage))
    (d : List (String × DiskEntry)) (dev : String)
    (h : get_disk_info parts = Except.ok d) :
    (d.map Prod.fst).Nodup ∧
    dictFind d dev = lastAccessible dev parts ∧
    get_disk_info dupParts = Except.ok [("tmpfs", mkDiskEntry dupP2 dupU2)] ∧
    [("tmpfs", mkDiskEntry dupP2 dupU2)].length < (dupParts.filter isAccessible).length := by
  refine ⟨diskLoop_ok_keys_nodup parts [] d h (by simp), ?_, rfl, by decide⟩
  have hf := diskLoop_ok_find parts [] d dev h
  rw [hf]
  cases lastAccessible dev parts <;> rfl

/-- C9 witness: instantiated on the duplicate-device partition list itself. -/
theorem C9_witness :
    get_disk_info dupParts = Except.ok [("tmpfs", mkDiskEntry dupP2 dupU2)] ∧
    (([("tmpfs", mkDiskEntry dupP2 dupU2)].map Prod.fst).Nodup ∧
     dictFind [("tmpfs", mkDiskEntry dupP2 dupU2)] "tmpfs" =
       lastAccessible "tmpfs" dupParts ∧
     get_disk_info dupParts = Except.ok [("tmpfs", mkDiskEntry dupP2 dupU2)] ∧
     [("tmpfs", mkDiskEntry dupP2 dupU2)].length < (dupParts.filter isAccessible).length) :=
  ⟨rfl, C9_device_keyed dupParts [("tmpfs", mkDiskEntry dupP2 dupU2)] "tmpfs" rfl⟩
